import Mathlib

/- Verification of the gesture-driven particle-tree application.

   Shallow embedding of:
   - the hand-gesture classifier frame step (src/unnamed/part_000, HandController);
   - the scene interaction state machine (src/components/Scene.tsx);
   - the per-axis exponential-smoothing interpolation step and its noise
     terms (src/components/Tree.tsx, src/components/Atmosphere.tsx);
   - the photo-ornament generator (src/components/Tree.tsx).

   Timestamps are modelled as integers (milliseconds, as produced by
   Date.now), normalized landmark coordinates and smoothing arithmetic as
   exact rationals, and the trigonometric noise/geometry terms as reals. -/

namespace GestureTree

/-- Tree display mode: the string union `'CHAOS' | 'FORMED'` used across
Scene.tsx, Tree.tsx and Atmosphere.tsx. -/
inductive TreeState where
  | CHAOS
  | FORMED
  deriving DecidableEq, Repr

/-- Swipe direction: the string union `'left' | 'right'` of the `onSwipe`
callback in HandController. -/
inductive SwipeDir where
  | left
  | right
  deriving DecidableEq, Repr

/-- One normalized hand landmark (x, y in [0,1], z relative depth), as
delivered by the external detector. -/
structure Landmark where
  x : ℚ
  y : ℚ
  z : ℚ
  deriving DecidableEq

/-- A hand frame: the fixed ordered sequence of 21 landmarks for one hand. -/
def HandFrame : Type := Fin 21 → Landmark

/-- HandController: `isExtended(tipIdx, pipIdx) = landmarks[tipIdx].y < landmarks[pipIdx].y`
(screen coordinates, 0 is top). -/
def isExtended (f : HandFrame) (tip pip : Fin 21) : Bool :=
  decide ((f tip).y < (f pip).y)

/-- HandController: `indexExt = isExtended(8, 6)`. -/
def indexExt (f : HandFrame) : Bool := isExtended f 8 6

/-- HandController: `middleExt = isExtended(12, 10)`. -/
def middleExt (f : HandFrame) : Bool := isExtended f 12 10

/-- HandController: `ringExt = isExtended(16, 14)`. -/
def ringExt (f : HandFrame) : Bool := isExtended f 16 14

/-- HandController: `pinkyExt = isExtended(20, 18)`. -/
def pinkyExt (f : HandFrame) : Bool := isExtended f 20 18

/-- HandController: `[indexExt, middleExt, ringExt, pinkyExt].filter(Boolean).length`. -/
def fingersExtendedCount (f : HandFrame) : ℕ :=
  ([indexExt f, middleExt f, ringExt f, pinkyExt f].filter id).length

/-- HandController: `isFist = fingersExtendedCount < 2`. -/
def isFist (f : HandFrame) : Bool := decide (fingersExtendedCount f < 2)

/-- HandController: `if (isFist) setTreeState('FORMED') else setTreeState('CHAOS')`. -/
def treeStateOf (f : HandFrame) : TreeState :=
  if isFist f then TreeState.FORMED else TreeState.CHAOS

/-- HandController: `isVictory = indexExt && middleExt && !ringExt && !pinkyExt`. -/
def isVictory (f : HandFrame) : Bool :=
  indexExt f && middleExt f && !ringExt f && !pinkyExt f

/-- HandController: `SWIPE_THRESHOLD = 0.03` (movement speed threshold). -/
def SWIPE_THRESHOLD : ℚ := 3/100

/-- HandController: `SWIPE_COOLDOWN = 500` ms (time between swipes). -/
def SWIPE_COOLDOWN : ℤ := 500

/-- HandController: the `800` ms cooldown on the victory selection gesture. -/
def SELECT_COOLDOWN : ℤ := 800

/-- Rolling memory of the gesture classifier: the refs `lastHandX`,
`lastSwipeTime`, `lastVictoryTime` of HandController. -/
structure ClassifierState where
  lastHandX : Option ℚ
  lastSwipeTime : ℤ
  lastVictoryTime : ℤ
  deriving DecidableEq

/-- Discrete and continuous outputs of one classifier frame: the tree-state
event, the focus-request event, the optional swipe event, and the rotate and
zoom signals. -/
structure ClassifierOutput where
  treeState : TreeState
  focusRequested : Bool
  swipeEvent : Option SwipeDir
  rotationDelta : ℚ
  zoomDelta : ℚ
  deriving DecidableEq

/-- HandController, victory selection: `if (isVictory) { if (now -
lastVictoryTime > 800) { setFocusMode(true); lastVictoryTime = now } }`.
Returns (event fired, updated lastVictoryTime). -/
def selectStep (isV : Bool) (now last : ℤ) : Bool × ℤ :=
  if isV && decide (now - last > SELECT_COOLDOWN) then (true, now) else (false, last)

/-- HandController, swipe detection: evaluated only while victory is held and
a previous hand-x sample exists; `dx = currentHandX - lastHandX`; fires when
`|dx| > SWIPE_THRESHOLD && now - lastSwipeTime > SWIPE_COOLDOWN`, direction
right when `dx > 0`, else left, resetting `lastSwipeTime`. Returns
(optional swipe event, updated lastSwipeTime). -/
def swipeStep (isV : Bool) (currentHandX : ℚ) (now : ℤ)
    (lastHandX : Option ℚ) (lastSwipeTime : ℤ) : Option SwipeDir × ℤ :=
  if isV then
    match lastHandX with
    | some lx =>
      let dx := currentHandX - lx
      if decide (|dx| > SWIPE_THRESHOLD) && decide (now - lastSwipeTime > SWIPE_COOLDOWN) then
        if decide (dx > 0) then (some SwipeDir.right, now) else (some SwipeDir.left, now)
      else (none, lastSwipeTime)
    | none => (none, lastSwipeTime)
  else (none, lastSwipeTime)

/-- One frame of HandController with a hand present (lines 95-166 of the
controller source): classify fist/victory from the landmarks, run the
victory-selection debounce and the swipe detector, update `lastHandX` to the
middle-finger MCP x (`landmarks[9].x`), and emit the continuous rotate
(`handX * 0.05`) and zoom (`handY`) signals. -/
def classifyFrame (f : HandFrame) (now : ℤ) (s : ClassifierState) :
    ClassifierOutput × ClassifierState :=
  let currentHandX := (f 9).x
  let sel := selectStep (isVictory f) now s.lastVictoryTime
  let sw := swipeStep (isVictory f) currentHandX now s.lastHandX s.lastSwipeTime
  let handX := ((f 9).x - 1/2) * 2
  let handY := ((f 9).y - 1/2) * 2
  (⟨treeStateOf f, sel.1, sw.1, handX * (5/100), handY⟩,
   ⟨some currentHandX, sw.2, sel.2⟩)

/-- Scene.tsx interaction state: `treeState`, `focusMode`, `slideshowIndex`. -/
structure SceneState where
  treeState : TreeState
  focusMode : Bool
  slideshowIndex : ℤ
  deriving DecidableEq

/-- Scene.tsx: applying a `treeState` event; the effect on `[treeState]`
runs `if (treeState === 'FORMED') setFocusMode(false)`. -/
def processTreeState (s : SceneState) (ts : TreeState) : SceneState :=
  let s1 : SceneState := { s with treeState := ts }
  if ts = TreeState.FORMED then { s1 with focusMode := false } else s1

/-- Scene.tsx `handleSwipe`: `if (!focusMode || photos.length === 0) return;`
then advance or retreat `slideshowIndex` modulo `photos.length`. -/
def handleSwipe (photosLen : ℕ) (dir : SwipeDir) (s : SceneState) : SceneState :=
  if !s.focusMode || photosLen == 0 then s
  else
    match dir with
    | SwipeDir.right => { s with slideshowIndex := (s.slideshowIndex + 1) % (photosLen : ℤ) }
    | SwipeDir.left =>
        { s with slideshowIndex := (s.slideshowIndex - 1 + (photosLen : ℤ)) % (photosLen : ℤ) }

/-- Scene.tsx slideshow effect: the 4-second interval exists only while
`focusMode && photos.length > 0`, and advances
`slideshowIndex = (prev + 1) % photos.length`. -/
def slideshowTick (photosLen : ℕ) (s : SceneState) : SceneState :=
  if s.focusMode && decide (0 < photosLen) then
    { s with slideshowIndex := (s.slideshowIndex + 1) % (photosLen : ℤ) }
  else s

/-- CONFIG.treeHeight = 14 (src/constants.ts). -/
def treeHeight : ℝ := 14

/-- CONFIG.treeRadius = 4.5 (src/constants.ts). -/
noncomputable def treeRadius : ℝ := 9/2

/-- One photo ornament of Tree.tsx: spiral position, bound photo index, id. -/
structure Ornament where
  posX : ℝ
  posY : ℝ
  posZ : ℝ
  photoIndex : ℕ
  id : ℕ

/-- Tree.tsx `photoOrnaments`: empty when `photos.length === 0`; otherwise 12
items on a spiral (`h = 0.2 + t*0.6`, cone radius scaled by 0.8, two turns),
each bound to `photoIndex = i % photos.length`. -/
noncomputable def photoOrnaments (photosLen : ℕ) : List Ornament :=
  if photosLen = 0 then []
  else
    (List.range 12).map fun (i : ℕ) =>
      let t : ℝ := (i : ℝ) / 12
      let h : ℝ := 0.2 + t * 0.6
      let y : ℝ := h * treeHeight - treeHeight / 2
      let r : ℝ := (1 - h) * treeRadius * 0.8
      let angle : ℝ := t * Real.pi * 4
      { posX := Real.cos angle * r, posY := y, posZ := Real.sin angle * r,
        photoIndex := i % photosLen, id := i }

/-- THREE.MathUtils.lerp over rationals: `lerp(x, y, t) = x + (y - x) * t`. -/
def lerp (x y t : ℚ) : ℚ := x + (y - x) * t

/-- Tree.tsx animation loop: `lerpSpeed = 0.03` (needles and trunk). -/
def lerpSpeed : ℚ := 3/100

/-- Tree.tsx gold-dust smoothing factor 0.02. -/
def dustLerp : ℚ := 1/50

/-- Atmosphere.tsx INSTANCE_CONFIG weights: gifts 0.02, balls 0.05, lights 0.15,
used as the per-group lerp factor in `animateGroup`. -/
def giftWeight : ℚ := 1/50

/-- Atmosphere.tsx balls weight 0.05. -/
def ballWeight : ℚ := 1/20

/-- Atmosphere.tsx lights weight 0.15. -/
def lightWeight : ℚ := 3/20

/-- Iterated per-axis smoothing step with a fixed target (mode held
constant, noise term ignored): n applications of
`current = lerp(current, target, α)`. -/
def iterLerp (α target : ℚ) : ℕ → ℚ → ℚ
  | 0, c => c
  | n + 1, c => iterLerp α target n (lerp c target α)

/-- THREE.MathUtils.lerp over reals, for the noise-carrying needle update. -/
noncomputable def lerpR (x y t : ℝ) : ℝ := x + (y - x) * t

/-- Tree.tsx needle update: `noise = isFormed ? 0 : Math.sin(t + i) * 0.05`. -/
noncomputable def needleNoise (isFormed : Bool) (t : ℝ) (i : ℕ) : ℝ :=
  if isFormed then 0 else Real.sin (t + (i : ℝ)) * 0.05

/-- Tree.tsx needle update for one axis: lerp the stored position toward
`target + noise` with factor `lerpSpeed = 0.03`. -/
noncomputable def needleTickAxis (isFormed : Bool) (t : ℝ) (i : ℕ)
    (pos target : ℝ) : ℝ :=
  lerpR pos (target + needleNoise isFormed t i) (3/100)

/-- Tree.tsx gold-dust target: when formed, the stored formed position spun by
`angleOffset = t * 0.5` about the vertical axis with a `Math.sin(t + i) * 0.2`
bobbing term on y; otherwise the chaos position unchanged. -/
noncomputable def dustTarget (isFormed : Bool) (t : ℝ) (i : ℕ)
    (formedX formedY formedZ chaosX chaosY chaosZ : ℝ) : ℝ × ℝ × ℝ :=
  if isFormed then
    let angleOffset := t * 0.5
    (formedX * Real.cos angleOffset - formedZ * Real.sin angleOffset,
     formedY + Real.sin (t + (i : ℝ)) * 0.2,
     formedX * Real.sin angleOffset + formedZ * Real.cos angleOffset)
  else (chaosX, chaosY, chaosZ)

/-- Firing times of the victory-selection debounce over a sequence of frame
timestamps, all frames classified as victory, starting from a given
`lastVictoryTime`. -/
def victoryFires : List ℤ → ℤ → List ℤ
  | [], _ => []
  | t :: ts, last =>
    if (selectStep true t last).1 then t :: victoryFires ts (selectStep true t last).2
    else victoryFires ts (selectStep true t last).2

/-- A concrete victory-pose frame: index and middle tips above their PIP
joints, ring and pinky not; hand center x at 0.45. -/
def victoryFrame : HandFrame := fun i =>
  if i.val = 8 || i.val = 12 then ⟨9/20, 1/5, 0⟩ else ⟨9/20, 1/2, 0⟩

/-- A concrete fist frame: all four tips strictly below their PIP joints. -/
def fistFrame : HandFrame := fun i =>
  if i.val = 8 || i.val = 12 || i.val = 16 || i.val = 20 then ⟨1/2, 7/10, 0⟩
  else ⟨1/2, 1/2, 0⟩

/-- A concrete open-hand frame: all four tips strictly above their PIP joints. -/
def openFrame : HandFrame := fun i =>
  if i.val = 8 || i.val = 12 || i.val = 16 || i.val = 20 then ⟨1/2, 1/5, 0⟩
  else ⟨1/2, 1/2, 0⟩

/- Evaluation helpers for the concrete frames. -/

theorem victoryFrame_flags :
    indexExt victoryFrame = true ∧ middleExt victoryFrame = true ∧
    ringExt victoryFrame = false ∧ pinkyExt victoryFrame = false := by
  have e6 : victoryFrame 6 = ⟨9/20, 1/2, 0⟩ := rfl
  have e8 : victoryFrame 8 = ⟨9/20, 1/5, 0⟩ := rfl
  have e10 : victoryFrame 10 = ⟨9/20, 1/2, 0⟩ := rfl
  have e12 : victoryFrame 12 = ⟨9/20, 1/5, 0⟩ := rfl
  have e14 : victoryFrame 14 = ⟨9/20, 1/2, 0⟩ := rfl
  have e16 : victoryFrame 16 = ⟨9/20, 1/2, 0⟩ := rfl
  have e18 : victoryFrame 18 = ⟨9/20, 1/2, 0⟩ := rfl
  have e20 : victoryFrame 20 = ⟨9/20, 1/2, 0⟩ := rfl
  norm_num [indexExt, middleExt, ringExt, pinkyExt, isExtended,
    e6, e8, e10, e12, e14, e16, e18, e20]

theorem victoryFrame_isVictory : isVictory victoryFrame = true := by
  simp [isVictory, victoryFrame_flags.1, victoryFrame_flags.2.1,
    victoryFrame_flags.2.2.1, victoryFrame_flags.2.2.2]

theorem fistFrame_tips_below :
    (fistFrame 6).y < (fistFrame 8).y ∧ (fistFrame 10).y < (fistFrame 12).y ∧
    (fistFrame 14).y < (fistFrame 16).y ∧ (fistFrame 18).y < (fistFrame 20).y := by
  have e6 : fistFrame 6 = ⟨1/2, 1/2, 0⟩ := rfl
  have e8 : fistFrame 8 = ⟨1/2, 7/10, 0⟩ := rfl
  have e10 : fistFrame 10 = ⟨1/2, 1/2, 0⟩ := rfl
  have e12 : fistFrame 12 = ⟨1/2, 7/10, 0⟩ := rfl
  have e14 : fistFrame 14 = ⟨1/2, 1/2, 0⟩ := rfl
  have e16 : fistFrame 16 = ⟨1/2, 7/10, 0⟩ := rfl
  have e18 : fistFrame 18 = ⟨1/2, 1/2, 0⟩ := rfl
  have e20 : fistFrame 20 = ⟨1/2, 7/10, 0⟩ := rfl
  norm_num [e6, e8, e10, e12, e14, e16, e18, e20]

theorem openFrame_tips_above :
    (openFrame 8).y < (openFrame 6).y ∧ (openFrame 12).y < (openFrame 10).y ∧
    (openFrame 16).y < (openFrame 14).y ∧ (openFrame 20).y < (openFrame 18).y := by
  have e6 : openFrame 6 = ⟨1/2, 1/2, 0⟩ := rfl
  have e8 : openFrame 8 = ⟨1/2, 1/5, 0⟩ := rfl
  have e10 : openFrame 10 = ⟨1/2, 1/2, 0⟩ := rfl
  have e12 : openFrame 12 = ⟨1/2, 1/5, 0⟩ := rfl
  have e14 : openFrame 14 = ⟨1/2, 1/2, 0⟩ := rfl
  have e16 : openFrame 16 = ⟨1/2, 1/5, 0⟩ := rfl
  have e18 : openFrame 18 = ⟨1/2, 1/2, 0⟩ := rfl
  have e20 : openFrame 20 = ⟨1/2, 1/5, 0⟩ := rfl
  norm_num [e6, e8, e10, e12, e14, e16, e18, e20]

theorem fistFrame_isFist : isFist fistFrame = true := by
  have e6 : fistFrame 6 = ⟨1/2, 1/2, 0⟩ := rfl
  have e8 : fistFrame 8 = ⟨1/2, 7/10, 0⟩ := rfl
  have e10 : fistFrame 10 = ⟨1/2, 1/2, 0⟩ := rfl
  have e12 : fistFrame 12 = ⟨1/2, 7/10, 0⟩ := rfl
  have e14 : fistFrame 14 = ⟨1/2, 1/2, 0⟩ := rfl
  have e16 : fistFrame 16 = ⟨1/2, 7/10, 0⟩ := rfl
  have e18 : fistFrame 18 = ⟨1/2, 1/2, 0⟩ := rfl
  have e20 : fistFrame 20 = ⟨1/2, 7/10, 0⟩ := rfl
  norm_num [isFist, fingersExtendedCount, indexExt, middleExt, ringExt, pinkyExt,
    isExtended, e6, e8, e10, e12, e14, e16, e18, e20]

/- Generic classifier facts shared by several claims. -/

/-- Flags of a victory frame, unpacked from the Boolean conjunction. -/
theorem isVictory_flags {f : HandFrame} (hv : isVictory f = true) :
    indexExt f = true ∧ middleExt f = true ∧ ringExt f = false ∧ pinkyExt f = false := by
  have h : ((indexExt f = true ∧ middleExt f = true) ∧ ringExt f = false) ∧
      pinkyExt f = false := by
    simpa [isVictory, Bool.and_eq_true, Bool.not_eq_true'] using hv
  exact ⟨h.1.1.1, h.1.1.2, h.1.2, h.2⟩

/-- A victory frame has exactly two extended fingers. -/
theorem isVictory_count {f : HandFrame} (hv : isVictory f = true) :
    fingersExtendedCount f = 2 := by
  obtain ⟨h1, h2, h3, h4⟩ := isVictory_flags hv
  simp [fingersExtendedCount, h1, h2, h3, h4]

/- Claim theorems. -/

/-- Claim C1: every transition of the mode to FORMED forces the focus flag to
false, regardless of prior interaction state; a fist frame commands FORMED,
and processing the resulting treeState event through the Scene effect always
leaves focus false. -/
theorem formed_event_clears_focus (s : SceneState) (f : HandFrame) (now : ℤ)
    (cs : ClassifierState) :
    (processTreeState s TreeState.FORMED).focusMode = false ∧
    (isFist f = true → (classifyFrame f now cs).1.treeState = TreeState.FORMED) ∧
    (isFist f = true →
      (processTreeState s (classifyFrame f now cs).1.treeState).focusMode = false) := by
  have h1 : (processTreeState s TreeState.FORMED).focusMode = false := by
    simp [processTreeState]
  have h2 : isFist f = true → (classifyFrame f now cs).1.treeState = TreeState.FORMED := by
    intro h
    simp [classifyFrame, treeStateOf, h]
  exact ⟨h1, h2, fun h => by rw [h2 h]; exact h1⟩

/-- Witness for C1: force focus = true, inject a concrete fist frame. -/
theorem formed_event_clears_focus_witness :
    (processTreeState ⟨TreeState.CHAOS, true, 0⟩ TreeState.FORMED).focusMode = false ∧
    (classifyFrame fistFrame 0 ⟨none, 0, 0⟩).1.treeState = TreeState.FORMED ∧
    (processTreeState ⟨TreeState.CHAOS, true, 0⟩
      (classifyFrame fistFrame 0 ⟨none, 0, 0⟩).1.treeState).focusMode = false := by
  obtain ⟨h1, h2, h3⟩ :=
    formed_event_clears_focus ⟨TreeState.CHAOS, true, 0⟩ fistFrame 0 ⟨none, 0, 0⟩
  exact ⟨h1, h2 fistFrame_isFist, h3 fistFrame_isFist⟩

/-- Claim C3: a finger counts as extended exactly when its tip keypoint's y is
smaller than its proximal-joint keypoint's y; the classifier emits FORMED
exactly when fewer than 2 of index/middle/ring/pinky are extended and CHAOS
otherwise; all four tips below their PIP joints (greater y) yields FORMED,
all four above yields CHAOS. -/
theorem finger_extension_and_fist_classification (f : HandFrame) :
    (indexExt f = true ↔ (f 8).y < (f 6).y) ∧
    (middleExt f = true ↔ (f 12).y < (f 10).y) ∧
    (ringExt f = true ↔ (f 16).y < (f 14).y) ∧
    (pinkyExt f = true ↔ (f 20).y < (f 18).y) ∧
    (treeStateOf f = TreeState.FORMED ↔ fingersExtendedCount f < 2) ∧
    (treeStateOf f = TreeState.CHAOS ↔ 2 ≤ fingersExtendedCount f) ∧
    ((f 6).y < (f 8).y ∧ (f 10).y < (f 12).y ∧ (f 14).y < (f 16).y ∧ (f 18).y < (f 20).y →
      treeStateOf f = TreeState.FORMED) ∧
    ((f 8).y < (f 6).y ∧ (f 12).y < (f 10).y ∧ (f 16).y < (f 14).y ∧ (f 20).y < (f 18).y →
      treeStateOf f = TreeState.CHAOS) := by
  have hformed : treeStateOf f = TreeState.FORMED ↔ fingersExtendedCount f < 2 := by
    rw [treeStateOf, isFist]
    by_cases h : fingersExtendedCount f < 2 <;> simp [h]
  have hchaos : treeStateOf f = TreeState.CHAOS ↔ 2 ≤ fingersExtendedCount f := by
    rw [treeStateOf, isFist]
    by_cases h : fingersExtendedCount f < 2
    · simp only [h, if_true]
      constructor
      · intro hc; exact absurd hc (by simp)
      · intro hc; omega
    · simp only [h, if_false]
      constructor
      · intro _; omega
      · intro _; rfl
  refine ⟨by simp [indexExt, isExtended], by simp [middleExt, isExtended],
    by simp [ringExt, isExtended], by simp [pinkyExt, isExtended],
    hformed, hchaos, ?_, ?_⟩
  · rintro ⟨h1, h2, h3, h4⟩
    have e1 : indexExt f = false := by simp [indexExt, isExtended]; linarith
    have e2 : middleExt f = false := by simp [middleExt, isExtended]; linarith
    have e3 : ringExt f = false := by simp [ringExt, isExtended]; linarith
    have e4 : pinkyExt f = false := by simp [pinkyExt, isExtended]; linarith
    rw [hformed]
    simp [fingersExtendedCount, e1, e2, e3, e4]
  · rintro ⟨h1, h2, h3, h4⟩
    have e1 : indexExt f = true := by simp [indexExt, isExtended]; linarith
    have e2 : middleExt f = true := by simp [middleExt, isExtended]; linarith
    have e3 : ringExt f = true := by simp [ringExt, isExtended]; linarith
    have e4 : pinkyExt f = true := by simp [pinkyExt, isExtended]; linarith
    rw [hchaos]
    simp [fingersExtendedCount, e1, e2, e3, e4]

/-- Witness for C3: a concrete all-tips-below frame classifies as FORMED and a
concrete all-tips-above frame classifies as CHAOS. -/
theorem finger_extension_and_fist_classification_witness :
    treeStateOf fistFrame = TreeState.FORMED ∧ treeStateOf openFrame = TreeState.CHAOS := by
  constructor
  · exact (finger_extension_and_fist_classification fistFrame).2.2.2.2.2.2.1
      fistFrame_tips_below
  · exact (finger_extension_and_fist_classification openFrame).2.2.2.2.2.2.2
      openFrame_tips_above

/-- Claim C9: any frame classified as victory (index and middle extended, ring
and pinky not) has exactly two extended fingers, so it fails the fist test and
the classifier emits treeState = CHAOS in that same frame. -/
theorem victory_pose_forces_chaos (f : HandFrame) (now : ℤ) (s : ClassifierState)
    (hv : isVictory f = true) :
    (classifyFrame f now s).1.treeState = TreeState.CHAOS := by
  have hcount := isVictory_count hv
  simp [classifyFrame, treeStateOf, isFist, hcount]

/-- Witness for C9: a concrete victory frame yields treeState = CHAOS. -/
theorem victory_pose_forces_chaos_witness :
    (classifyFrame victoryFrame 0 ⟨none, 0, 0⟩).1.treeState = TreeState.CHAOS :=
  victory_pose_forces_chaos victoryFrame 0 ⟨none, 0, 0⟩ victoryFrame_isVictory

/-- Claim C8: with an empty photo list, swipe events and the slideshow timer
are no-ops (the prior state, including slideshowIndex, is kept unchanged, so
no modulo-by-zero index arithmetic is performed), and the photo-ornament set
is generated empty. -/
theorem empty_photo_list_noops (s : SceneState) (dir : SwipeDir) :
    handleSwipe 0 dir s = s ∧ slideshowTick 0 s = s ∧ photoOrnaments 0 = [] :=
  ⟨by simp [handleSwipe], by simp [slideshowTick], by simp [photoOrnaments]⟩

/-- Claim C10: a swipe processed while focusMode = false leaves the whole
scene state (slideshowIndex included) unchanged, for any photo-list length
and either direction. -/
theorem swipe_inert_without_focus (photosLen : ℕ) (dir : SwipeDir) (s : SceneState)
    (h : s.focusMode = false) :
    handleSwipe photosLen dir s = s := by
  simp [handleSwipe, h]

/-- Witness for C10: concrete unfocused state, nonempty photo list. -/
theorem swipe_inert_without_focus_witness :
    handleSwipe 3 SwipeDir.right ⟨TreeState.CHAOS, false, 1⟩ =
      (⟨TreeState.CHAOS, false, 1⟩ : SceneState) :=
  swipe_inert_without_focus 3 SwipeDir.right ⟨TreeState.CHAOS, false, 1⟩ rfl

/- Swipe detection (C2). -/

/-- The swipe step under victory with a previous sample, as a propositional
conditional. -/
theorem swipeStep_eq (x lx : ℚ) (now lastS : ℤ) :
    swipeStep true x now (some lx) lastS =
      if |x - lx| > SWIPE_THRESHOLD ∧ now - lastS > SWIPE_COOLDOWN then
        if x - lx > 0 then (some SwipeDir.right, now) else (some SwipeDir.left, now)
      else (none, lastS) := by
  simp only [swipeStep, Bool.and_eq_true, decide_eq_true_eq, if_true]

/-- Claim C2: while the victory pose is held and a previous hand-x sample
exists, a swipe event is emitted iff `|dx| > 0.03` and
`now - lastSwipeTime > 500`, with direction right iff additionally `dx > 0`
and left otherwise; emitting resets the swipe timestamp and not emitting
keeps it; and `lastHandX` is updated to the current hand x on every frame
with a hand present, whether or not a swipe fired. -/
theorem swipe_detection_correct (f : HandFrame) (now : ℤ) (s : ClassifierState) (lx : ℚ)
    (hv : isVictory f = true) (hl : s.lastHandX = some lx) :
    ((classifyFrame f now s).1.swipeEvent ≠ none ↔
      |(f 9).x - lx| > SWIPE_THRESHOLD ∧ now - s.lastSwipeTime > SWIPE_COOLDOWN) ∧
    ((classifyFrame f now s).1.swipeEvent = some SwipeDir.right ↔
      (|(f 9).x - lx| > SWIPE_THRESHOLD ∧ now - s.lastSwipeTime > SWIPE_COOLDOWN) ∧
        (f 9).x - lx > 0) ∧
    ((classifyFrame f now s).1.swipeEvent = some SwipeDir.left ↔
      (|(f 9).x - lx| > SWIPE_THRESHOLD ∧ now - s.lastSwipeTime > SWIPE_COOLDOWN) ∧
        ¬((f 9).x - lx > 0)) ∧
    ((classifyFrame f now s).1.swipeEvent ≠ none →
      (classifyFrame f now s).2.lastSwipeTime = now) ∧
    ((classifyFrame f now s).1.swipeEvent = none →
      (classifyFrame f now s).2.lastSwipeTime = s.lastSwipeTime) ∧
    (∀ (g : HandFrame) (m : ℤ) (st : ClassifierState),
      (classifyFrame g m st).2.lastHandX = some ((g 9).x)) := by
  have h1 : (classifyFrame f now s).1.swipeEvent
      = (swipeStep (isVictory f) ((f 9).x) now s.lastHandX s.lastSwipeTime).1 := rfl
  have h2 : (classifyFrame f now s).2.lastSwipeTime
      = (swipeStep (isVictory f) ((f 9).x) now s.lastHandX s.lastSwipeTime).2 := rfl
  rw [hv, hl, swipeStep_eq] at h1 h2
  by_cases hc : |(f 9).x - lx| > SWIPE_THRESHOLD ∧ now - s.lastSwipeTime > SWIPE_COOLDOWN
  · rw [if_pos hc] at h1 h2
    by_cases hd : (f 9).x - lx > 0
    · rw [if_pos hd] at h1 h2
      refine ⟨?_, ?_, ?_, ?_, ?_, fun g m st => rfl⟩
      · exact ⟨fun _ => hc, fun _ => by rw [h1]; exact Option.some_ne_none _⟩
      · exact ⟨fun _ => ⟨hc, hd⟩, fun _ => h1⟩
      · refine ⟨fun hee => ?_, fun hx => absurd hd hx.2⟩
        rw [h1] at hee
        exact absurd hee (by simp)
      · exact fun _ => h2
      · intro hee
        rw [h1] at hee
        exact absurd hee (by simp)
    · rw [if_neg hd] at h1 h2
      refine ⟨?_, ?_, ?_, ?_, ?_, fun g m st => rfl⟩
      · exact ⟨fun _ => hc, fun _ => by rw [h1]; exact Option.some_ne_none _⟩
      · refine ⟨fun hee => ?_, fun hx => absurd hx.2 hd⟩
        rw [h1] at hee
        exact absurd hee (by simp)
      · exact ⟨fun _ => ⟨hc, hd⟩, fun _ => h1⟩
      · exact fun _ => h2
      · intro hee
        rw [h1] at hee
        exact absurd hee (by simp)
  · rw [if_neg hc] at h1 h2
    refine ⟨?_, ?_, ?_, ?_, ?_, fun g m st => rfl⟩
    · exact ⟨fun hne => absurd h1 hne, fun hcond => absurd hcond hc⟩
    · refine ⟨fun hee => ?_, fun hx => absurd hx.1 hc⟩
      rw [h1] at hee
      exact absurd hee (by simp)
    · refine ⟨fun hee => ?_, fun hx => absurd hx.1 hc⟩
      rw [h1] at hee
      exact absurd hee (by simp)
    · exact fun hne => absurd h1 hne
    · exact fun _ => h2

/-- Witness for C2: victory frame at hand x 0.45, previous sample 0.40
(dx = 0.05 > 0.03), 600 ms after the last swipe (> 500 ms): a right swipe
fires and the timestamps update. -/
theorem swipe_detection_correct_witness :
    ((classifyFrame victoryFrame 600 ⟨some (2/5), 0, 0⟩).1.swipeEvent ≠ none ↔
      |(victoryFrame 9).x - 2/5| > SWIPE_THRESHOLD ∧ (600 : ℤ) - 0 > SWIPE_COOLDOWN) ∧
    ((classifyFrame victoryFrame 600 ⟨some (2/5), 0, 0⟩).1.swipeEvent = some SwipeDir.right ↔
      (|(victoryFrame 9).x - 2/5| > SWIPE_THRESHOLD ∧ (600 : ℤ) - 0 > SWIPE_COOLDOWN) ∧
        (victoryFrame 9).x - 2/5 > 0) ∧
    ((classifyFrame victoryFrame 600 ⟨some (2/5), 0, 0⟩).1.swipeEvent = some SwipeDir.left ↔
      (|(victoryFrame 9).x - 2/5| > SWIPE_THRESHOLD ∧ (600 : ℤ) - 0 > SWIPE_COOLDOWN) ∧
        ¬((victoryFrame 9).x - 2/5 > 0)) ∧
    ((classifyFrame victoryFrame 600 ⟨some (2/5), 0, 0⟩).1.swipeEvent ≠ none →
      (classifyFrame victoryFrame 600 ⟨some (2/5), 0, 0⟩).2.lastSwipeTime = 600) ∧
    ((classifyFrame victoryFrame 600 ⟨some (2/5), 0, 0⟩).1.swipeEvent = none →
      (classifyFrame victoryFrame 600 ⟨some (2/5), 0, 0⟩).2.lastSwipeTime = 0) ∧
    (∀ (g : HandFrame) (m : ℤ) (st : ClassifierState),
      (classifyFrame g m st).2.lastHandX = some ((g 9).x)) :=
  swipe_detection_correct victoryFrame 600 ⟨some (2/5), 0, 0⟩ (2/5)
    victoryFrame_isVictory rfl

/- Victory-selection debounce (C4). -/

/-- The selection step under victory, as a propositional conditional. -/
theorem selectStep_true_eq (now last : ℤ) :
    selectStep true now last =
      if now - last > SELECT_COOLDOWN then (true, now) else (false, last) := by
  simp only [selectStep, Bool.true_and, decide_eq_true_eq]

/-- Every firing time exceeds the incoming debounce timestamp by more than
the cooldown. -/
theorem victoryFires_mem_gt (ts : List ℤ) :
    ∀ (last x : ℤ), x ∈ victoryFires ts last → x - last > SELECT_COOLDOWN := by
  induction ts with
  | nil => intro last x hx; simp [victoryFires] at hx
  | cons t ts ih =>
    intro last x hx
    rw [victoryFires, selectStep_true_eq] at hx
    by_cases h : t - last > SELECT_COOLDOWN
    · rw [if_pos h] at hx
      simp only [if_pos h] at hx
      rcases List.mem_cons.mp hx with rfl | hx
      · exact h
      · have hxt := ih t x hx
        have hC : SELECT_COOLDOWN = 800 := rfl
        rw [hC] at h hxt ⊢
        omega
    · rw [if_neg h] at hx
      simp only [if_neg h] at hx
      exact ih last x hx

/-- Consecutive (indeed all ordered pairs of) firing times of the victory
debounce are separated by more than the cooldown. -/
theorem victoryFires_pairwise (ts : List ℤ) :
    ∀ last, (victoryFires ts last).Pairwise (fun a b => b - a > SELECT_COOLDOWN) := by
  induction ts with
  | nil => intro last; simp [victoryFires]
  | cons t ts ih =>
    intro last
    rw [victoryFires, selectStep_true_eq]
    by_cases h : t - last > SELECT_COOLDOWN
    · rw [if_pos h]
      simp only [if_pos h]
      exact List.Pairwise.cons (fun b hb => victoryFires_mem_gt ts t b hb) (ih t)
    · rw [if_neg h]
      simp only [if_neg h]
      exact ih last

/-- Claim C4: for frames all classified as victory, a focusRequested event
fires exactly when `now - lastVictoryTime > 800`; firing resets the
timestamp and not firing keeps it; over any victory frame sequence, any two
distinct firing times are separated by more than 800 ms, so at most one
focusRequested event fires within any 800 ms window. -/
theorem victory_selection_debounce (f : HandFrame) (now : ℤ) (s : ClassifierState)
    (ts : List ℤ) (last : ℤ) :
    ((classifyFrame f now s).1.focusRequested = true ↔
      isVictory f = true ∧ now - s.lastVictoryTime > SELECT_COOLDOWN) ∧
    ((selectStep true now last).1 = true ↔ now - last > SELECT_COOLDOWN) ∧
    ((selectStep true now last).1 = true → (selectStep true now last).2 = now) ∧
    ((selectStep true now last).1 = false → (selectStep true now last).2 = last) ∧
    (victoryFires ts last).Pairwise (fun a b => b - a > SELECT_COOLDOWN) ∧
    (∀ a b, a ∈ victoryFires ts last → b ∈ victoryFires ts last → a ≠ b →
      b - a > SELECT_COOLDOWN ∨ a - b > SELECT_COOLDOWN) := by
  have hsym : ∀ a b : ℤ,
      (b - a > SELECT_COOLDOWN ∨ a - b > SELECT_COOLDOWN) →
      (a - b > SELECT_COOLDOWN ∨ b - a > SELECT_COOLDOWN) := fun a b h => h.symm
  refine ⟨?_, ?_, ?_, ?_, victoryFires_pairwise ts last, ?_⟩
  · have heq : (classifyFrame f now s).1.focusRequested
        = (selectStep (isVictory f) now s.lastVictoryTime).1 := rfl
    rw [heq]
    simp only [selectStep]
    by_cases hvv : isVictory f = true
    · by_cases h : now - s.lastVictoryTime > SELECT_COOLDOWN
      · simp [hvv, h]
      · simp [hvv, h]
    · have hfalse : isVictory f = false := by
        cases hb : isVictory f
        · rfl
        · exact absurd hb hvv
      simp [hfalse]
  · rw [selectStep_true_eq]
    by_cases h : now - last > SELECT_COOLDOWN
    · rw [if_pos h]
      simp [h]
    · rw [if_neg h]
      simp [h]
  · rw [selectStep_true_eq]
    by_cases h : now - last > SELECT_COOLDOWN
    · rw [if_pos h]
      simp
    · rw [if_neg h]
      simp
  · rw [selectStep_true_eq]
    by_cases h : now - last > SELECT_COOLDOWN
    · rw [if_pos h]
      simp
    · rw [if_neg h]
      simp
  · intro a b ha hb hne
    have hpw := (victoryFires_pairwise ts last).imp
      (fun h => Or.inl h :
        ∀ {a b : ℤ}, b - a > SELECT_COOLDOWN →
          (b - a > SELECT_COOLDOWN ∨ a - b > SELECT_COOLDOWN))
    exact List.Pairwise.forall (fun {a b} h => hsym a b h) hpw ha hb hne

/-- Witness for C4: concrete victory frame and a concrete timestamp sequence;
with lastVictoryTime 0, frames at 100/1000/1500/2000 ms fire at 1000 and
2000 only. -/
theorem victory_selection_debounce_witness :
    ((classifyFrame victoryFrame 1000 ⟨none, 0, 0⟩).1.focusRequested = true ↔
      isVictory victoryFrame = true ∧ (1000 : ℤ) - 0 > SELECT_COOLDOWN) ∧
    ((selectStep true 1000 0).1 = true ↔ (1000 : ℤ) - 0 > SELECT_COOLDOWN) ∧
    ((selectStep true 1000 0).1 = true → (selectStep true 1000 0).2 = 1000) ∧
    ((selectStep true 1000 0).1 = false → (selectStep true 1000 0).2 = 0) ∧
    (victoryFires [100, 1000, 1500, 2000] 0).Pairwise
      (fun a b => b - a > SELECT_COOLDOWN) ∧
    (∀ a b, a ∈ victoryFires [100, 1000, 1500, 2000] 0 →
      b ∈ victoryFires [100, 1000, 1500, 2000] 0 → a ≠ b →
      b - a > SELECT_COOLDOWN ∨ a - b > SELECT_COOLDOWN) :=
  victory_selection_debounce victoryFrame 1000 ⟨none, 0, 0⟩ [100, 1000, 1500, 2000] 0

/- Interpolation engine (C5, C6, C7). -/

/-- Closed form of the iterated smoothing error: after n ticks the distance to
the fixed target is scaled by (1 - α)^n. -/
theorem iterLerp_err (α target : ℚ) :
    ∀ (n : ℕ) (c : ℚ), iterLerp α target n c - target = (1 - α) ^ n * (c - target) := by
  intro n
  induction n with
  | zero =>
    intro c
    simp [iterLerp]
  | succ n ih =>
    intro c
    rw [iterLerp, ih (lerp c target α), lerp]
    ring

/-- Claim C5: with the mode (hence the target) held constant and the noise
term ignored, repeated ticking monotonically decreases |current - target|
(strictly while the error is nonzero), and current converges: for every
positive ε there is a tick count N after which the error stays below ε. -/
theorem tick_converges_monotonically (α target c : ℚ) (h0 : 0 < α) (h1 : α ≤ 1) :
    (∀ n, |iterLerp α target (n + 1) c - target| ≤ |iterLerp α target n c - target|) ∧
    (∀ n, iterLerp α target n c - target ≠ 0 →
      |iterLerp α target (n + 1) c - target| < |iterLerp α target n c - target|) ∧
    (∀ ε : ℚ, 0 < ε → ∃ N, ∀ n, N ≤ n → |iterLerp α target n c - target| < ε) := by
  have hα0 : (0 : ℚ) ≤ 1 - α := by linarith
  have hα1 : 1 - α < 1 := by linarith
  have herr : ∀ n, |iterLerp α target n c - target| = (1 - α) ^ n * |c - target| := by
    intro n
    rw [iterLerp_err α target n c, abs_mul, abs_pow, abs_of_nonneg hα0]
  refine ⟨?_, ?_, ?_⟩
  · intro n
    rw [herr, herr, pow_succ]
    have step : (1 - α) ^ n * (1 - α) ≤ (1 - α) ^ n * 1 :=
      mul_le_mul_of_nonneg_left (by linarith) (pow_nonneg hα0 n)
    have := mul_le_mul_of_nonneg_right step (abs_nonneg (c - target))
    simpa using this
  · intro n hn
    have hpos : 0 < (1 - α) ^ n * |c - target| := by
      rcases lt_or_eq_of_le (abs_nonneg (iterLerp α target n c - target)) with h | h
      · rw [herr n] at h
        exact h
      · exact absurd (abs_eq_zero.mp h.symm) hn
    rw [herr, herr, pow_succ]
    calc (1 - α) ^ n * (1 - α) * |c - target|
        = (1 - α) * ((1 - α) ^ n * |c - target|) := by ring
      _ < 1 * ((1 - α) ^ n * |c - target|) := mul_lt_mul_of_pos_right hα1 hpos
      _ = (1 - α) ^ n * |c - target| := one_mul _
  · intro ε hε
    by_cases hct : c - target = 0
    · refine ⟨0, fun n _ => ?_⟩
      rw [herr, hct, abs_zero, mul_zero]
      exact hε
    · have habs : 0 < |c - target| := abs_pos.mpr hct
      obtain ⟨N, hN⟩ := exists_pow_lt_of_lt_one (div_pos hε habs) hα1
      refine ⟨N, fun n hn => ?_⟩
      rw [herr]
      have hle : (1 - α) ^ n ≤ (1 - α) ^ N := pow_le_pow_of_le_one hα0 (by linarith) hn
      have hmul : (1 - α) ^ n * |c - target| ≤ (1 - α) ^ N * |c - target| :=
        mul_le_mul_of_nonneg_right hle (abs_nonneg _)
      have hfin : (1 - α) ^ N * |c - target| < ε := (lt_div_iff₀ habs).mp hN
      exact lt_of_le_of_lt hmul hfin

/-- Witness for C5: the needle smoothing factor 0.03 satisfies the
hypotheses, at current = 1, target = 0. -/
theorem tick_converges_monotonically_witness :
    0 < lerpSpeed ∧ lerpSpeed ≤ 1 ∧
    ((∀ n, |iterLerp lerpSpeed 0 (n + 1) 1 - 0| ≤ |iterLerp lerpSpeed 0 n 1 - 0|) ∧
     (∀ n, iterLerp lerpSpeed 0 n 1 - 0 ≠ 0 →
       |iterLerp lerpSpeed 0 (n + 1) 1 - 0| < |iterLerp lerpSpeed 0 n 1 - 0|) ∧
     (∀ ε : ℚ, 0 < ε → ∃ N, ∀ n, N ≤ n → |iterLerp lerpSpeed 0 n 1 - 0| < ε)) :=
  ⟨by norm_num [lerpSpeed], by norm_num [lerpSpeed],
    tick_converges_monotonically lerpSpeed 0 1 (by norm_num [lerpSpeed])
      (by norm_num [lerpSpeed])⟩

/-- Claim C6: one needle tick after a mode flip (arbitrary current position,
arbitrary new target) moves the position by at most
α · |target_new - current| plus the noise term, and the noise term is
bounded by 0.05 — so the single-tick displacement is bounded regardless of
how long the engine was converging toward the other target. -/
theorem mode_flip_bounded_displacement (isFormed : Bool) (t : ℝ) (i : ℕ)
    (pos target : ℝ) :
    |needleTickAxis isFormed t i pos target - pos|
      ≤ (3 / 100) * |target - pos| + |needleNoise isFormed t i| ∧
    |needleNoise isFormed t i| ≤ 5 / 100 := by
  constructor
  · rw [needleTickAxis, lerpR]
    have hsplit : pos + (target + needleNoise isFormed t i - pos) * (3 / 100) - pos
        = (target - pos) * (3 / 100) + needleNoise isFormed t i * (3 / 100) := by
      ring
    rw [hsplit]
    have h1 : |(target - pos) * (3 / 100 : ℝ)| = |target - pos| * (3 / 100) := by
      rw [abs_mul]
      norm_num
    have h2 : |needleNoise isFormed t i * (3 / 100 : ℝ)|
        = |needleNoise isFormed t i| * (3 / 100) := by
      rw [abs_mul]
      norm_num
    have h3 := abs_add ((target - pos) * (3 / 100 : ℝ))
      (needleNoise isFormed t i * (3 / 100))
    have h4 := abs_nonneg (needleNoise isFormed t i)
    rw [h1, h2] at h3
    linarith
  · cases isFormed with
    | true =>
      simp only [needleNoise, if_true, abs_zero]
      norm_num
    | false =>
      have hs : |Real.sin (t + (i : ℝ))| ≤ 1 :=
        abs_le.mpr ⟨Real.neg_one_le_sin _, Real.sin_le_one _⟩
      have : |Real.sin (t + (i : ℝ)) * (0.05 : ℝ)|
          = |Real.sin (t + (i : ℝ))| * 0.05 := by
        rw [abs_mul]
        norm_num
      rw [show needleNoise false t i = Real.sin (t + (i : ℝ)) * 0.05 from rfl, this]
      nlinarith

/-- Counterexample to C7 as stated: at the concrete input (FORMED, t = 1,
i = 0) the needle noise term is exactly zero — the needle group does NOT add
a sinusoidal jitter to its target when formed (sin(1)·0.05 is nonzero). -/
theorem needle_noise_formed_counterexample :
    needleNoise true 1 0 = 0 ∧ needleNoise true 1 0 ≠ Real.sin (1 + (0 : ℕ)) * 0.05 := by
  have hz : needleNoise true 1 0 = 0 := rfl
  refine ⟨hz, ?_⟩
  rw [hz]
  have h1 : (0 : ℝ) < Real.sin 1 :=
    Real.sin_pos_of_pos_of_lt_pi one_pos (by linarith [Real.pi_gt_three])
  have h2 : (1 + ((0 : ℕ) : ℝ)) = 1 := by norm_num
  rw [h2]
  intro h
  nlinarith

/-- Amended C7: in FORMED mode the per-tick noise term of the tree-needle
group is zero (the sinusoidal jitter sin(t + i)·0.05 applies only in
CHAOS/SCATTERED mode); the group that adds a sinusoidal term even when
formed is the gold dust, whose y target gains sin(t + i)·0.2 bobbing while
its x/z are the formed position spun by the clock; in SCATTERED mode the
needle noise is the deterministic function sin(t + i)·0.05 of the particle
index and the global clock, and the dust target is the stored chaos
position. -/
theorem noise_terms_by_mode (t : ℝ) (i : ℕ) (fx fy fz cx cy cz : ℝ) :
    needleNoise true t i = 0 ∧
    needleNoise false t i = Real.sin (t + (i : ℝ)) * 0.05 ∧
    (dustTarget true t i fx fy fz cx cy cz).2.1 = fy + Real.sin (t + (i : ℝ)) * 0.2 ∧
    dustTarget false t i fx fy fz cx cy cz = (cx, cy, cz) :=
  ⟨rfl, rfl, rfl, rfl⟩

end GestureTree
